import Mathlib

/-!
Verification development for the survey-analytics application
(`DavidCruzGomez/PythonFinalProject`).

The Python modules under verification are shallowly embedded:

* a pandas `DataFrame` becomes a list of columns (name plus a numeric flag)
  together with a list of rows, each row a positional list of cells;
  a cell is a rational number, a missing value (`NaN`), or a string;
* `remove_outliers`, `calculate_entropy` and the quartile/outlier part of
  `summary` from `assets/preprocess.py` become functions on that model;
* the chart builders and the dispatcher from the visualization package
  become functions returning `Option` of a figure-description value
  (`none` models the Python functions returning `None`);
* the JSON user store from `assets/users_db.py` becomes an association
  list of user records, with `bcrypt.hashpw` abstracted as an arbitrary
  hashing function passed as a parameter (its salt is environmental).

Numeric dataframe cells are modelled with `ℚ` (the survey data are small
integer codes, exactly representable in `float64`), and the entropy value
with `ℝ`.
-/

namespace PFP

/-- A cell of a pandas dataframe: a numeric value, a missing value (`NaN`),
or a string value. -/
inductive Cell where
  | num (q : ℚ)
  | nan
  | str (s : String)
deriving DecidableEq

/-- A dataframe column: its name and whether its dtype is numeric
(`df.select_dtypes(include=[np.number])` keeps exactly the numeric ones). -/
structure Column where
  name : String
  numeric : Bool
deriving DecidableEq

/-- A pandas dataframe: a list of columns and a list of rows; every row
lists its cells in column order. -/
@[ext] structure DataFrame where
  cols : List Column
  rows : List (List Cell)
deriving DecidableEq

/-- The cell of row `r` at column position `i` (missing positions read as
`NaN`; well-formed frames never hit the default). -/
def cellAt (r : List Cell) (i : ℕ) : Cell :=
  r.getD i Cell.nan

/-- The numeric columns of a dataframe, with their positions: the embedding
of `df.select_dtypes(include=[np.number]).columns` (iterated in column
order). -/
def numericCols (df : DataFrame) : List (ℕ × Column) :=
  df.cols.enum.filter (fun p => p.2.numeric)

/-- The per-column default upper bound of `remove_outliers`: 8 for the
column `Q3_SCHOOL` and 5 for every other column. -/
def defaultUpperBound (name : String) : ℚ :=
  if name = "Q3_SCHOOL" then 8 else 5

/-- The upper bound actually used for a column: a custom threshold when one
was passed for that column, the default otherwise.  This embeds the
`default_thresholds` / `outlier_thresholds.update(...)` /
`outlier_thresholds.get(col, 5)` chain of `src/assets/preprocess.py`
(the `FinalProject/assets/preprocess.py` revision has no threshold
parameter and always uses the defaults, i.e. the `none` case). -/
def upperBoundWith (outlier_thresholds : Option (List (String × ℚ))) (name : String) : ℚ :=
  match outlier_thresholds with
  | none => defaultUpperBound name
  | some t =>
    match t.lookup name with
    | some b => b
    | none => defaultUpperBound name

/-- The pandas elementwise test `(df[col] >= 0) & (df[col] <= upper_bound)`:
true for a numeric value inside `[0, ub]`; false for `NaN` (every comparison
with `NaN` is false in pandas). -/
def cellInRange (c : Cell) (ub : ℚ) : Bool :=
  match c with
  | Cell.num q => decide (0 ≤ q) && decide (q ≤ ub)
  | _ => false

/-- `remove_outliers` from `assets/preprocess.py`: walk the numeric columns
in order and, for each, keep only the rows whose value in that column lies
in `[0, upper_bound]`. -/
def remove_outliers (df : DataFrame) (outlier_thresholds : Option (List (String × ℚ))) :
    DataFrame :=
  { cols := df.cols
    rows := (numericCols df).foldl
      (fun rows p =>
        rows.filter (fun r => cellInRange (cellAt r p.1) (upperBoundWith outlier_thresholds p.2.name)))
      df.rows }

/-- Folding a sequence of filters equals one filter by the conjunction of
all the predicates. -/
theorem foldl_filter_eq_filter_all {α β : Type} (f : α → β → Bool) (ps : List α)
    (rows : List β) :
    ps.foldl (fun acc p => acc.filter (f p)) rows
      = rows.filter (fun r => ps.all (fun p => f p r)) := by
  induction ps generalizing rows with
  | nil => simp
  | cons p ps ih =>
    rw [List.foldl_cons, ih, List.filter_filter]
    apply List.filter_congr
    intro r _
    simp [Bool.and_comm]

/-- The rows surviving `remove_outliers` are exactly the rows whose value
in every numeric column lies in `[0, bound-for-that-column]`, in their
original order. -/
theorem remove_outliers_rows (df : DataFrame) (ths : Option (List (String × ℚ))) :
    (remove_outliers df ths).rows
      = df.rows.filter (fun r =>
          (numericCols df).all
            (fun p => cellInRange (cellAt r p.1) (upperBoundWith ths p.2.name))) := by
  unfold remove_outliers
  exact foldl_filter_eq_filter_all _ _ _

/-- C1: with no custom thresholds, `remove_outliers` returns exactly the
rows in which every numeric column's value lies within `[0, upper_bound]`,
where the upper bound is 8 for `Q3_SCHOOL` and 5 for every other numeric
column; the surviving rows keep their original order (the result is a
`List.filter` of the original row list) and the rows and columns themselves
are unchanged. -/
theorem remove_outliers_default_spec (df : DataFrame) :
    (remove_outliers df none).cols = df.cols ∧
    (remove_outliers df none).rows
      = df.rows.filter (fun r =>
          (numericCols df).all
            (fun p => cellInRange (cellAt r p.1) (defaultUpperBound p.2.name))) := by
  refine ⟨rfl, ?_⟩
  rw [remove_outliers_rows]
  rfl

/-- C8: `remove_outliers` is idempotent: a second pass (with the same
thresholds, in particular the default ones) removes no further rows. -/
theorem remove_outliers_idempotent (df : DataFrame) (ths : Option (List (String × ℚ))) :
    remove_outliers (remove_outliers df ths) ths = remove_outliers df ths := by
  have hnum : numericCols (remove_outliers df ths) = numericCols df := rfl
  refine DataFrame.ext rfl ?_
  rw [remove_outliers_rows, hnum, remove_outliers_rows, List.filter_filter]
  apply List.filter_congr
  intro r _
  simp

/-- Drop the missing values of a series: the embedding of
`series.dropna()` for a column of possibly missing numeric values. -/
def dropna (s : List (Option ℚ)) : List ℚ :=
  s.filterMap id

/-- `calculate_entropy` from `assets/preprocess.py`: drop missing values,
form each distinct value's relative frequency `p` (this is
`value_counts(normalize=True)`), and return `-Σ p * log2 p` over the
distinct values.  On an empty or all-missing series the sum is empty and
the result is `0`, as in both revisions of the source. -/
noncomputable def calculate_entropy (s : List (Option ℚ)) : ℝ :=
  -((dropna s).dedup.map (fun v =>
      (((dropna s).count v : ℝ) / ((dropna s).length : ℝ))
        * Real.logb 2 (((dropna s).count v : ℝ) / ((dropna s).length : ℝ)))).sum

/-- Summing a constant over a list multiplies it by the length. -/
theorem sum_map_const_real {α : Type} (l : List α) (c : ℝ) :
    (l.map (fun _ => c)).sum = (l.length : ℝ) * c := by
  induction l with
  | nil => simp
  | cons a l ih =>
    simp only [List.map_cons, List.sum_cons, ih, List.length_cons]
    push_cast
    ring

/-- The binary logarithm of one fourth is minus two. -/
theorem logb_two_one_fourth : Real.logb 2 ((1 : ℝ)/4) = -2 := by
  have h4 : ((1 : ℝ)/4) = ((2 : ℝ)^(2 : ℕ))⁻¹ := by norm_num
  rw [h4, Real.logb_inv, Real.logb_pow, Real.logb_self_eq_one (by norm_num)]
  norm_num

/-- C5: `calculate_entropy` returns `0` for every non-empty series whose
non-missing values are all equal, and returns exactly `2` for every series
whose non-missing values are uniformly distributed (each with the same
positive count `k`) over exactly `4` distinct categories. -/
theorem calculate_entropy_spec (s : List (Option ℚ)) :
    (s ≠ [] → (∀ x ∈ dropna s, ∀ y ∈ dropna s, x = y) → calculate_entropy s = 0) ∧
    (∀ k : ℕ, 0 < k → (dropna s).dedup.length = 4 →
      (∀ v ∈ (dropna s).dedup, (dropna s).count v = k) →
      calculate_entropy s = 2) := by
  constructor
  · intro _ hall
    unfold calculate_entropy
    rw [neg_eq_zero]
    apply List.sum_eq_zero
    intro x hx
    rw [List.mem_map] at hx
    obtain ⟨v, hv, rfl⟩ := hx
    have hvmem : v ∈ dropna s := List.mem_dedup.mp hv
    have hcount : (dropna s).count v = (dropna s).length :=
      List.count_eq_length.mpr (fun b hb => hall v hvmem b hb)
    have hlen : (0 : ℝ) < ((dropna s).length : ℝ) := by
      have : 0 < (dropna s).length := List.length_pos.mpr (List.ne_nil_of_mem hvmem)
      exact_mod_cast this
    rw [hcount, div_self (ne_of_gt hlen), Real.logb_one, mul_zero]
  · intro k hk hlen hcount
    unfold calculate_entropy
    have hn : (dropna s).length = 4 * k := by
      have hsum := List.sum_map_count_dedup_eq_length (dropna s)
      rw [List.map_congr_left (fun v hv => hcount v hv)] at hsum
      rw [← hsum]
      have : ((dropna s).dedup.map (fun _ => k)).sum = (dropna s).dedup.length * k := by
        induction (dropna s).dedup with
        | nil => simp
        | cons a l ih => simp [ih, Nat.succ_mul, Nat.add_comm]
      rw [this, hlen]
    have hterm : ∀ v ∈ (dropna s).dedup,
        (((dropna s).count v : ℝ) / ((dropna s).length : ℝ))
          * Real.logb 2 (((dropna s).count v : ℝ) / ((dropna s).length : ℝ))
        = ((1 : ℝ)/4) * Real.logb 2 ((1 : ℝ)/4) := by
      intro v hv
      have hq : (((dropna s).count v : ℝ) / ((dropna s).length : ℝ)) = (1 : ℝ)/4 := by
        rw [hcount v hv, hn]
        have hk0 : (k : ℝ) ≠ 0 := by exact_mod_cast Nat.pos_iff_ne_zero.mp hk
        push_cast
        field_simp
        ring
      rw [hq]
    rw [List.map_congr_left hterm, sum_map_const_real, hlen, logb_two_one_fourth]
    norm_num

/-- Witness for C5: a three-element single-category series has entropy `0`,
and a series uniform over four distinct categories has entropy `2`. -/
theorem calculate_entropy_spec_witness :
    calculate_entropy [some 1, some 1, some 1] = 0 ∧
    calculate_entropy [some 1, some 2, some 3, some 4] = 2 := by
  constructor
  · exact (calculate_entropy_spec [some 1, some 1, some 1]).1 (by decide) (by decide)
  · exact (calculate_entropy_spec [some 1, some 2, some 3, some 4]).2 1
      (by decide) (by decide) (by decide)

/-- The numeric value of a cell, when it has one (strings and `NaN` have
none). -/
def cellNumValue (c : Cell) : Option ℚ :=
  match c with
  | Cell.num q => some q
  | _ => none

/-- The cells of column position `i`, row by row. -/
def colCells (df : DataFrame) (i : ℕ) : List Cell :=
  df.rows.map (fun r => cellAt r i)

/-- The non-missing numeric values of column position `i`. -/
def numColValues (df : DataFrame) (i : ℕ) : List ℚ :=
  (colCells df i).filterMap cellNumValue

/-- The pandas quantile of a list of values at fraction `p`, with the
default linear interpolation used by `DataFrame.describe()`: on the sorted
values `x_0 ≤ … ≤ x_(n-1)` the quantile sits at position `h = p*(n-1)` and
equals `x_⌊h⌋ + (h-⌊h⌋) * (x_(⌊h⌋+1) - x_⌊h⌋)`. -/
def percentile (xs : List ℚ) (p : ℚ) : ℚ :=
  let sorted := xs.insertionSort (fun a b => a ≤ b);
  let h : ℚ := p * ((sorted.length : ℚ) - 1);
  let i : ℕ := h.floor.toNat;
  let lo := sorted.getD i 0;
  let hi := sorted.getD (i + 1) lo;
  lo + (h - (h.floor : ℚ)) * (hi - lo)

/-- The quartile and outlier slice of the `summary` dataframe for one
numeric column. -/
structure NumColSummary where
  quart25 : ℚ
  quart75 : ℚ
  iqr : ℚ
  outliers : ℕ
deriving DecidableEq

/-- The `25%` entry of `describe()` for one numeric column
(`describe()` drops the missing values). -/
def descQuart25 (cells : List Cell) : ℚ :=
  percentile (cells.filterMap cellNumValue) (25/100)

/-- The `75%` entry of `describe()` for one numeric column. -/
def descQuart75 (cells : List Cell) : ℚ :=
  percentile (cells.filterMap cellNumValue) (75/100)

/-- `summ['25%'] = desc['25%']`. -/
def summQuart25 (cells : List Cell) : ℚ := descQuart25 cells

/-- `summ['75%'] = desc['75%']`. -/
def summQuart75 (cells : List Cell) : ℚ := descQuart75 cells

/-- `summ['IQR'] = summ['75%'] - summ['25%']`. -/
def summIQR (cells : List Cell) : ℚ := summQuart75 cells - summQuart25 cells

/-- The quartile/outlier computation of `summary` from
`assets/preprocess.py` for one numeric column, following the source: the
`Outliers` entry counts the cells with `(x < desc['25%'] -
1.5*summ['IQR']) | (x > desc['75%'] + 1.5*summ['IQR'])`; comparisons with
`NaN` are false, so missing cells are never counted. -/
def summaryNumCol (cells : List Cell) : NumColSummary :=
  { quart25 := summQuart25 cells
    quart75 := summQuart75 cells
    iqr := summIQR cells
    outliers := cells.countP (fun c =>
      match c with
      | Cell.num q =>
        decide (q < descQuart25 cells - 1.5 * summIQR cells)
          || decide (q > descQuart75 cells + 1.5 * summIQR cells)
      | _ => false) }

/-- The `Outliers` entry that `summary` computes for column position `i`. -/
def summaryOutliersEntry (df : DataFrame) (i : ℕ) : ℕ :=
  (summaryNumCol (colCells df i)).outliers

/-- Claim side of C6, written from the claim: the number of values in the
column strictly less than `Q1 - 1.5*IQR` or strictly greater than
`Q3 + 1.5*IQR`, where `Q1` and `Q3` are the column's 25th and 75th
percentiles and `IQR = Q3 - Q1`. -/
def iqrOutlierCount (vals : List ℚ) : ℕ :=
  (vals.filter (fun v =>
      decide (v < percentile vals (1/4) - (3/2) * (percentile vals (3/4) - percentile vals (1/4)))
        || decide (percentile vals (3/4) + (3/2) * (percentile vals (3/4) - percentile vals (1/4)) < v))).length

/-- Counting the numeric cells satisfying `p` equals filtering the
extracted numeric values by `p`. -/
theorem countP_cells_eq_filter_values (cells : List Cell) (p : ℚ → Bool) :
    cells.countP (fun c =>
      match c with
      | Cell.num q => p q
      | _ => false)
      = ((cells.filterMap cellNumValue).filter p).length := by
  induction cells with
  | nil => rfl
  | cons c cs ih =>
    cases c with
    | num q =>
      by_cases hq : p q = true
      · simp [List.countP_cons, List.filterMap_cons, cellNumValue, hq, ih]
      · simp [List.countP_cons, List.filterMap_cons, cellNumValue, hq, ih]
    | nan => simp [List.countP_cons, List.filterMap_cons, cellNumValue, ih]
    | str s => simp [List.countP_cons, List.filterMap_cons, cellNumValue, ih]

/-- C6: for a numeric column of a dataframe, the `Outliers` entry of
`summary` equals the number of values strictly less than `Q1 - 1.5*IQR` or
strictly greater than `Q3 + 1.5*IQR`, with `Q1`, `Q3` the column's 25th
and 75th percentiles and `IQR = Q3 - Q1`. -/
theorem summary_outliers_spec (df : DataFrame) (i : ℕ) (c : Column)
    (hc : df.cols.get? i = some c) (hnum : c.numeric = true) :
    summaryOutliersEntry df i = iqrOutlierCount (numColValues df i) := by
  unfold summaryOutliersEntry summaryNumCol iqrOutlierCount numColValues
  rw [countP_cells_eq_filter_values]
  dsimp only
  congr 1
  apply List.filter_congr
  intro v _
  unfold summIQR summQuart75 summQuart25 descQuart25 descQuart75
  have h25 : (25/100 : ℚ) = 1/4 := by norm_num
  have h75 : (75/100 : ℚ) = 3/4 := by norm_num
  have h15 : (1.5 : ℚ) = 3/2 := by norm_num
  rw [h25, h75, h15]

/-- The sample numeric column of the repository's own summary test:
values 1, 2, 3, 100, of which only 100 lies outside the IQR fences. -/
def dfOutlierSample : DataFrame :=
  { cols := [{ name := "numeric_col", numeric := true }]
    rows := [[Cell.num 1], [Cell.num 2], [Cell.num 3], [Cell.num 100]] }

/-- Witness for C6: on the sample column the summary entry equals the
claim's IQR count, and both equal 1. -/
theorem summary_outliers_spec_witness :
    dfOutlierSample.cols.get? 0 = some { name := "numeric_col", numeric := true } ∧
    summaryOutliersEntry dfOutlierSample 0 = iqrOutlierCount (numColValues dfOutlierSample 0) ∧
    summaryOutliersEntry dfOutlierSample 0 = 1 := by
  refine ⟨rfl, summary_outliers_spec dfOutlierSample 0 _ rfl rfl, ?_⟩
  with_unfolding_all decide

/-! ### The chart layer (`src/visualization/charts`) -/

/-- The `answers` data dictionary: Likert code to label. -/
def answers : List (ℚ × String) :=
  [(1, "Very disagree"), (2, "Disagree"), (3, "Normal"), (4, "Agree"), (5, "Very agree")]

/-- The `gender` data dictionary. -/
def gender : List (ℚ × String) :=
  [(0, "Female"), (1, "Male")]

/-- The `school` data dictionary. -/
def school : List (ℚ × String) :=
  [(1, "Can Tho FPT University"), (2, "Can Tho University"),
   (3, "Can Tho Medicine and Pharmacy University"), (4, "Nam Can Tho University"),
   (5, "Can Tho College"), (6, "College of Medicine"),
   (7, "Can Tho FPT Polytechnic College"), (8, "Others")]

/-- The `income` data dictionary. -/
def income : List (ℚ × String) :=
  [(1, "Under 3 million"), (2, "From 3 - 5 million"),
   (3, "From 5 - 10 million"), (4, "Over 10 million")]

/-- `DEFAULT_CATEGORY_ORDER` from `bar_charts.py`. -/
def DEFAULT_CATEGORY_ORDER : List String :=
  ["Very disagree", "Disagree", "Normal", "Agree", "Very agree"]

/-- `df.empty` in pandas: true when either axis has length zero. -/
def dfEmpty (df : DataFrame) : Bool :=
  df.rows.isEmpty || df.cols.isEmpty

/-- The position of the column named `name`, when it exists
(`name in df.columns` succeeds exactly when this is `some`). -/
def colIndex (df : DataFrame) (name : String) : Option ℕ :=
  df.cols.findIdx? (fun c => c.name = name)

/-- `series.map(answers)`: a cell maps to an answer label when it is a
numeric value that is a key of the `answers` dictionary, and to `NaN`
(here `none`) otherwise. -/
def mapAnswer (c : Cell) : Option String :=
  match c with
  | Cell.num q => answers.lookup q
  | _ => none

/-- `series.map(gender)`. -/
def mapGenderCell (c : Cell) : Option String :=
  match c with
  | Cell.num q => gender.lookup q
  | _ => none

/-- The bar heights of the general bar chart: for each label of
`DEFAULT_CATEGORY_ORDER` (the reindexing order, missing filled with 0) the
number of rows whose mapped answer is that label
(`value_counts().reindex(category_order, fill_value=0)`). -/
def answerCounts (df : DataFrame) (qi : ℕ) : List ℕ :=
  DEFAULT_CATEGORY_ORDER.map (fun cat => ((colCells df qi).map mapAnswer).count (some cat))

/-- The data content of a rendered bar chart. -/
structure BarFigure where
  categories : List String
  counts : List ℕ
deriving DecidableEq

/-- `create_bar_chart_general` from `bar_charts.py` (with the default
optional arguments, as the dispatcher calls it): `None` for an empty
dataframe, a missing question column, or a zero reindexed count sum; a
figure with the per-category counts otherwise. -/
def create_bar_chart_general (df : DataFrame) (selected_question : String) :
    Option BarFigure :=
  if dfEmpty df then none
  else
    match colIndex df selected_question with
    | none => none
    | some qi =>
      if (answerCounts df qi).sum = 0 then none
      else some { categories := DEFAULT_CATEGORY_ORDER, counts := answerCounts df qi }

/-- The data content of a rendered (possibly multi-panel) pie chart: one
panel per group label, each with its displayed `(label, size)` slices. -/
structure PieFigure where
  groups : List (String × List (String × ℕ))
deriving DecidableEq

/-- The percentage-threshold aggregation of the pie charts: slices whose
share is at least 3 percent stay; the remaining sizes are pooled into an
`Others` slice when their pooled size is positive. -/
def aggregateSmall (counts : List (String × ℕ)) : List (String × ℕ) :=
  let total : ℕ := (counts.map (fun p => p.2)).sum;
  let keep := counts.filter (fun p => decide ((p.2 : ℚ) / (total : ℚ) * 100 ≥ 3));
  let others := ((counts.filter (fun p => !decide ((p.2 : ℚ) / (total : ℚ) * 100 ≥ 3))).map (fun p => p.2)).sum;
  if 0 < others then keep ++ [("Others", others)] else keep

/-- The `(gender label, answer label)` of each row after the two `map`
calls of `create_pie_chart_by_gender` (either side is `none` when the code
did not map). -/
def genderAnswerRows (df : DataFrame) (qi gi : ℕ) : List (Option String × Option String) :=
  df.rows.map (fun r => (mapGenderCell (cellAt r gi), mapAnswer (cellAt r qi)))

/-- A processed row survives the `groupby` (whose default drops rows with
a missing key) exactly when both labels mapped. -/
def bothMapped (p : Option String × Option String) : Option (String × String) :=
  match p with
  | (some g, some a) => some (g, a)
  | _ => none

/-- The group labels of the `groupby(...).size().unstack()` index, in the
sorted order pandas uses. -/
def groupLabels (pairs : List (String × String)) : List String :=
  ((pairs.map (fun p => p.1)).dedup).insertionSort (fun a b => a ≤ b)

/-- The answer labels of the `unstack` columns, in sorted order. -/
def answerLabels (pairs : List (String × String)) : List String :=
  ((pairs.map (fun p => p.2)).dedup).insertionSort (fun a b => a ≤ b)

/-- One unstacked row of grouped counts: for a group label, the count of
each answer label (0 when the pair never occurs). -/
def groupCounts (pairs : List (String × String)) (g : String) : List (String × ℕ) :=
  (answerLabels pairs).map (fun a => (a, pairs.count (g, a)))

/-- The panels drawn by the pie-chart loop, given the surviving
`(gender, answer)` pairs: `None` when the grouped data is empty, otherwise
one aggregated panel per group. -/
def buildGenderPie (pairs : List (String × String)) : Option PieFigure :=
  if pairs.isEmpty then none
  else some { groups := (groupLabels pairs).map (fun g => (g, aggregateSmall (groupCounts pairs g))) }

/-- The Python truthiness test `if gender_filter:` on an optional string:
true exactly for a present, non-empty string. -/
def filterTruthy (f : Option String) : Bool :=
  match f with
  | some s => decide (s ≠ "")
  | none => false

/-- The `processed_df` rows of `create_pie_chart_by_gender` after the
optional gender restriction: when the filter is truthy the rows are
restricted to those whose mapped gender equals it. -/
def pieProcessedRows (df : DataFrame) (qi gi : ℕ) (gender_filter : Option String) :
    List (Option String × Option String) :=
  if filterTruthy gender_filter then
    (genderAnswerRows df qi gi).filter (fun p => decide (p.1 = gender_filter))
  else genderAnswerRows df qi gi

/-- `create_pie_chart_by_gender` from `pie_charts.py` (default optional
arguments): validates the dataframe, the question column and the
`Q2_GENDER` column, rejects a truthy filter other than `Male`/`Female`,
restricts to the filtered gender when the filter is truthy, groups the
mapped rows, and returns `None` when nothing survives the grouping. -/
def create_pie_chart_by_gender (df : DataFrame) (selected_question : String)
    (gender_filter : Option String) : Option PieFigure :=
  if dfEmpty df then none
  else
    match colIndex df selected_question, colIndex df "Q2_GENDER" with
    | some qi, some gi =>
      if filterTruthy gender_filter = true ∧ gender_filter ≠ some "Male" ∧ gender_filter ≠ some "Female" then
        none
      else
        buildGenderPie ((pieProcessedRows df qi gi gender_filter).filterMap bothMapped)
    | _, _ => none

/-- A list of naturals sums to zero exactly when every entry is zero. -/
theorem nat_sum_eq_zero_iff (l : List ℕ) : l.sum = 0 ↔ ∀ x ∈ l, x = 0 := by
  induction l with
  | nil => simp
  | cons a l ih => simp [Nat.add_eq_zero, ih]

/-- `df.empty` holds exactly when the row list or the column list is
empty. -/
theorem dfEmpty_iff (df : DataFrame) : dfEmpty df = true ↔ (df.rows = [] ∨ df.cols = []) := by
  simp [dfEmpty]

/-- A column name has no position exactly when no column bears it. -/
theorem colIndex_none_iff (df : DataFrame) (name : String) :
    colIndex df name = none ↔ ¬ ∃ c ∈ df.cols, c.name = name := by
  simp [colIndex, List.findIdx?_eq_none_iff]

/-- Every label produced by the `answers` mapping is one of the five
default categories. -/
theorem mapAnswer_mem_categories (c : Cell) (lbl : String) (h : mapAnswer c = some lbl) :
    lbl ∈ DEFAULT_CATEGORY_ORDER := by
  cases c with
  | num q =>
    simp only [mapAnswer, answers, List.lookup] at h
    repeat' split at h
    all_goals simp_all [DEFAULT_CATEGORY_ORDER]
  | nan => simp [mapAnswer] at h
  | str s => simp [mapAnswer] at h

/-- The reindexed counts of the general bar chart sum to zero exactly when
no row of the dataframe maps to an answer label. -/
theorem answerCounts_sum_eq_zero_iff (df : DataFrame) (qi : ℕ) :
    (answerCounts df qi).sum = 0 ↔ ∀ r ∈ df.rows, mapAnswer (cellAt r qi) = none := by
  rw [nat_sum_eq_zero_iff]
  unfold answerCounts
  constructor
  · intro h r hr
    cases hsome : mapAnswer (cellAt r qi) with
    | none => rfl
    | some lbl =>
      exfalso
      have hmem : lbl ∈ DEFAULT_CATEGORY_ORDER := mapAnswer_mem_categories _ _ hsome
      have hx := h (((colCells df qi).map mapAnswer).count (some lbl))
        (List.mem_map_of_mem _ hmem)
      rw [List.count_eq_zero] at hx
      apply hx
      rw [← hsome]
      apply List.mem_map_of_mem
      unfold colCells
      exact List.mem_map_of_mem _ hr
  · intro h x hx
    rw [List.mem_map] at hx
    obtain ⟨cat, _, rfl⟩ := hx
    rw [List.count_eq_zero]
    intro hmem
    rw [List.mem_map] at hmem
    obtain ⟨cell, hcell, hmap⟩ := hmem
    unfold colCells at hcell
    rw [List.mem_map] at hcell
    obtain ⟨r, hr, rfl⟩ := hcell
    rw [h r hr] at hmap
    exact Option.noConfusion hmap

/-- A processed row is dropped by the grouping exactly when one of its two
labels failed to map. -/
theorem bothMapped_eq_none_iff (p : Option String × Option String) :
    bothMapped p = none ↔ (p.1 = none ∨ p.2 = none) := by
  rcases p with ⟨g, a⟩
  cases g <;> cases a <;> simp [bothMapped]

/-- The pie builder returns `None` exactly when no pair survived. -/
theorem buildGenderPie_eq_none_iff (pairs : List (String × String)) :
    buildGenderPie pairs = none ↔ pairs = [] := by
  unfold buildGenderPie
  by_cases h : pairs.isEmpty
  · rw [if_pos h]
    simp_all [List.isEmpty_iff]
  · rw [if_neg h]
    simp_all [List.isEmpty_iff]

/-- The dataframe of the C2 counterexample: the question column exists and
the dataframe is not empty, but its only value is not a Likert code. -/
def dfNoValidAnswers : DataFrame :=
  { cols := [{ name := "SC1", numeric := true }]
    rows := [[Cell.num 99]] }

/-- Counterexample to C2 as stated: on this dataframe the question column
is present, the dataframe is not empty and no filter is involved, yet
`create_bar_chart_general` returns `None` (the value 99 maps to no answer
category, so the reindexed counts sum to zero). -/
theorem chart_none_counterexample :
    dfNoValidAnswers.rows ≠ [] ∧ dfNoValidAnswers.cols ≠ [] ∧
    (∃ c ∈ dfNoValidAnswers.cols, c.name = "SC1") ∧
    create_bar_chart_general dfNoValidAnswers "SC1" = none := by
  refine ⟨by decide, by decide, ⟨{ name := "SC1", numeric := true }, by decide, rfl⟩, ?_⟩
  with_unfolding_all decide

/-- C2 (amended): a chart builder returns `None` exactly when the
dataframe is empty, a required column is missing, a truthy filter value is
invalid, or no row yields a recognized response after mapping (and, for
the pie chart, after the gender restriction); it returns a figure in all
remaining cases.  Stated for the two chart builders embedded here. -/
theorem chart_none_iff (df : DataFrame) (q : String) (gf : Option String) :
    (create_bar_chart_general df q = none ↔
      (df.rows = [] ∨ df.cols = [] ∨ (¬ ∃ c ∈ df.cols, c.name = q) ∨
        (∃ qi, colIndex df q = some qi ∧ ∀ r ∈ df.rows, mapAnswer (cellAt r qi) = none))) ∧
    (create_pie_chart_by_gender df q gf = none ↔
      (df.rows = [] ∨ df.cols = [] ∨ (¬ ∃ c ∈ df.cols, c.name = q) ∨
        (¬ ∃ c ∈ df.cols, c.name = "Q2_GENDER") ∨
        (filterTruthy gf = true ∧ gf ≠ some "Male" ∧ gf ≠ some "Female") ∨
        (∃ qi gi, colIndex df q = some qi ∧ colIndex df "Q2_GENDER" = some gi ∧
          ∀ p ∈ pieProcessedRows df qi gi gf, p.1 = none ∨ p.2 = none))) := by
  constructor
  · unfold create_bar_chart_general
    by_cases hemp : dfEmpty df = true
    · rw [if_pos hemp]
      rw [dfEmpty_iff] at hemp
      constructor
      · intro _
        tauto
      · intro _
        rfl
    · rw [if_neg hemp]
      have hemp2 : ¬(df.rows = [] ∨ df.cols = []) := fun h => hemp ((dfEmpty_iff df).mpr h)
      cases hidx : colIndex df q with
      | none =>
        constructor
        · intro _
          exact Or.inr (Or.inr (Or.inl ((colIndex_none_iff df q).mp hidx)))
        · intro _
          rfl
      | some qi =>
        dsimp only
        by_cases hz : (answerCounts df qi).sum = 0
        · rw [if_pos hz]
          constructor
          · intro _
            exact Or.inr (Or.inr (Or.inr ⟨qi, rfl, (answerCounts_sum_eq_zero_iff df qi).mp hz⟩))
          · intro _
            rfl
        · rw [if_neg hz]
          constructor
          · intro hcontra
            exact Option.noConfusion hcontra
          · intro hrhs
            rcases hrhs with h | h | h | ⟨qi2, hqi2, hall⟩
            · exact absurd (Or.inl h) hemp2
            · exact absurd (Or.inr h) hemp2
            · rw [← colIndex_none_iff df q, hidx] at h
              exact Option.noConfusion h
            · injection hqi2 with he
              subst he
              exact absurd ((answerCounts_sum_eq_zero_iff df qi).mpr hall) hz
  · unfold create_pie_chart_by_gender
    by_cases hemp : dfEmpty df = true
    · rw [if_pos hemp]
      rw [dfEmpty_iff] at hemp
      constructor
      · intro _
        tauto
      · intro _
        rfl
    · rw [if_neg hemp]
      have hemp2 : ¬(df.rows = [] ∨ df.cols = []) := fun h => hemp ((dfEmpty_iff df).mpr h)
      cases hq : colIndex df q with
      | none =>
        constructor
        · intro _
          exact Or.inr (Or.inr (Or.inl ((colIndex_none_iff df q).mp hq)))
        · intro _
          rfl
      | some qi =>
        have hqcol : ¬ ¬ ∃ c ∈ df.cols, c.name = q := by
          intro hno
          rw [← colIndex_none_iff df q, hq] at hno
          exact Option.noConfusion hno
        cases hg : colIndex df "Q2_GENDER" with
        | none =>
          constructor
          · intro _
            exact Or.inr (Or.inr (Or.inr (Or.inl ((colIndex_none_iff df _).mp hg))))
          · intro _
            rfl
        | some gi =>
          dsimp only
          have hgcol : ¬ ¬ ∃ c ∈ df.cols, c.name = "Q2_GENDER" := by
            intro hno
            rw [← colIndex_none_iff df _, hg] at hno
            exact Option.noConfusion hno
          by_cases hbad : filterTruthy gf = true ∧ gf ≠ some "Male" ∧ gf ≠ some "Female"
          · rw [if_pos hbad]
            constructor
            · intro _
              exact Or.inr (Or.inr (Or.inr (Or.inr (Or.inl hbad))))
            · intro _
              rfl
          · rw [if_neg hbad]
            rw [buildGenderPie_eq_none_iff, List.filterMap_eq_nil_iff]
            constructor
            · intro hall
              refine Or.inr (Or.inr (Or.inr (Or.inr (Or.inr ⟨qi, gi, rfl, rfl, ?_⟩))))
              intro p hp
              exact (bothMapped_eq_none_iff p).mp (hall p hp)
            · intro hrhs
              rcases hrhs with h | h | h | h | h | ⟨qi2, gi2, hqi2, hgi2, hall⟩
              · exact absurd (Or.inl h) hemp2
              · exact absurd (Or.inr h) hemp2
              · exact absurd h hqcol
              · exact absurd h hgcol
              · exact absurd h hbad
              · injection hqi2 with he1
                injection hgi2 with he2
                subst he1
                subst he2
                intro p hp
                exact (bothMapped_eq_none_iff p).mpr (hall p hp)

/-- Witness for C2 (amended): a missing question column makes the general
bar chart builder return `None` on a concrete non-empty dataframe. -/
theorem chart_none_iff_witness :
    create_bar_chart_general dfNoValidAnswers "MISSING" = none :=
  (chart_none_iff dfNoValidAnswers "MISSING" none).1.mpr
    (Or.inr (Or.inr (Or.inl (by with_unfolding_all decide))))

/-! ### The chart dispatchers -/

/-- Which specialized chart-building function a dispatcher invokes, with
the arguments it forwards beyond the loaded dataframe. -/
inductive ChartCall where
  | barGeneral (q : String)
  | barByGender (q : String)
  | barBySchool (q : String)
  | barByIncome (q : String)
  | pieGeneral (q : String)
  | pieByGender (q : String) (gender_filter : Option String)
  | pieBySchool (q : String) (school_filter : String)
  | pieByIncome (q : String) (income_filter : String)
deriving DecidableEq

/-- The flag and filter arguments of `visualize_survey_responses`. -/
structure VizFlags where
  distinction_by_gender : Bool
  distinction_by_school : Bool
  distinction_by_income : Bool
  pie_chart : Bool
  gender_filter : Option String
  pie_chart_by_gender : Bool
  school_filter : Option String
  pie_chart_by_school : Bool
  income_filter : Option String
  pie_chart_by_income : Bool
deriving DecidableEq

/-- The routing of `visualize_survey_responses` from
`visualization/charts/base.py`: given the result of `load_data()` and the
flags, which chart builder is invoked; `none` when a failed load or a
validation error (missing demographic column, invalid filter) returns
`None` before any builder runs. -/
def visualize_survey_responses_route (survey_data : Option DataFrame) (q : String)
    (f : VizFlags) : Option ChartCall :=
  match survey_data with
  | none => none
  | some df =>
    if f.distinction_by_gender then
      if colIndex df "Q2_GENDER" = none then none else some (ChartCall.barByGender q)
    else if f.distinction_by_school then
      if colIndex df "Q3_SCHOOL" = none then none else some (ChartCall.barBySchool q)
    else if f.distinction_by_income then
      if colIndex df "Q4_INCOME" = none then none else some (ChartCall.barByIncome q)
    else if f.pie_chart then some (ChartCall.pieGeneral q)
    else if f.pie_chart_by_gender then
      if f.gender_filter = some "Male" ∨ f.gender_filter = some "Female" then
        some (ChartCall.pieByGender q f.gender_filter)
      else none
    else if f.pie_chart_by_school then
      match f.school_filter with
      | some s => if s ∈ school.map (fun p => p.2) then some (ChartCall.pieBySchool q s) else none
      | none => none
    else if f.pie_chart_by_income then
      match f.income_filter with
      | some s => if s ∈ income.map (fun p => p.2) then some (ChartCall.pieByIncome q s) else none
      | none => none
    else some (ChartCall.barGeneral q)

/-- The routing of `question_plot` from `FinalProject/assets/graphics.py`:
same precedence, no validation, and its pie-by-gender branch forwards no
filter. -/
def question_plot_route (survey_data : Option DataFrame) (q : String)
    (distinction_by_gender distinction_by_school distinction_by_income : Bool)
    (pie_chart pie_chart_by_gender : Bool) : Option ChartCall :=
  match survey_data with
  | none => none
  | some _ =>
    if distinction_by_gender then some (ChartCall.barByGender q)
    else if distinction_by_school then some (ChartCall.barBySchool q)
    else if distinction_by_income then some (ChartCall.barByIncome q)
    else if pie_chart then some (ChartCall.pieGeneral q)
    else if pie_chart_by_gender then some (ChartCall.pieByGender q none)
    else some (ChartCall.barGeneral q)

/-- Claim side of C4: the builder the fixed precedence selects (gender,
then school, then income, then the pie variants, defaulting to the general
bar chart), written from the claim's wording and ignoring validation. -/
def chosenCall (q : String) (f : VizFlags) : ChartCall :=
  if f.distinction_by_gender then ChartCall.barByGender q
  else if f.distinction_by_school then ChartCall.barBySchool q
  else if f.distinction_by_income then ChartCall.barByIncome q
  else if f.pie_chart then ChartCall.pieGeneral q
  else if f.pie_chart_by_gender then ChartCall.pieByGender q f.gender_filter
  else if f.pie_chart_by_school then ChartCall.pieBySchool q (f.school_filter.getD "")
  else if f.pie_chart_by_income then ChartCall.pieByIncome q (f.income_filter.getD "")
  else ChartCall.barGeneral q

/-- Claim side of C4 (amended): whether the validation of the selected
branch passes (required demographic column present, filter value valid;
branches without validation always pass). -/
def branchValidB (df : DataFrame) (f : VizFlags) : Bool :=
  if f.distinction_by_gender then decide (colIndex df "Q2_GENDER" ≠ none)
  else if f.distinction_by_school then decide (colIndex df "Q3_SCHOOL" ≠ none)
  else if f.distinction_by_income then decide (colIndex df "Q4_INCOME" ≠ none)
  else if f.pie_chart then true
  else if f.pie_chart_by_gender then
    decide (f.gender_filter = some "Male" ∨ f.gender_filter = some "Female")
  else if f.pie_chart_by_school then
    decide (∃ s, f.school_filter = some s ∧ s ∈ school.map (fun p => p.2))
  else if f.pie_chart_by_income then
    decide (∃ s, f.income_filter = some s ∧ s ∈ income.map (fun p => p.2))
  else true

/-- The flag assignment of the C4 counterexample: only
`pie_chart_by_gender` is set, and no gender filter is supplied. -/
def vizFlagsNoFilter : VizFlags :=
  { distinction_by_gender := false
    distinction_by_school := false
    distinction_by_income := false
    pie_chart := false
    gender_filter := none
    pie_chart_by_gender := true
    school_filter := none
    pie_chart_by_school := false
    income_filter := none
    pie_chart_by_income := false }

/-- The dataframe used by the dispatcher counterexample and witnesses. -/
def dfSurveySample : DataFrame :=
  { cols := [{ name := "SC1", numeric := true }, { name := "Q2_GENDER", numeric := true }]
    rows := [[Cell.num 1, Cell.num 0]] }

/-- Counterexample to C4 as stated: with `pie_chart_by_gender` set and no
gender filter, the dispatcher hits its filter validation, invokes no
chart-building function at all, and returns `None`, although the data
loaded; the claim promises exactly one invocation for every assignment of
the flags and filter arguments. -/
theorem question_dispatch_counterexample :
    visualize_survey_responses_route (some dfSurveySample) "SC1" vizFlagsNoFilter = none := by
  with_unfolding_all decide

/-- C4 (amended): when the data loads, `visualize_survey_responses`
invokes exactly the chart builder selected by the fixed precedence,
provided the selected branch's validation passes, and invokes none
(returning `None`) when it fails; `question_plot` has no validation and
always invokes exactly the selected builder; neither invokes anything when
the data fails to load. -/
theorem question_dispatch_spec (df : DataFrame) (q : String) (f : VizFlags)
    (dg ds di pc pg : Bool) :
    visualize_survey_responses_route none q f = none ∧
    visualize_survey_responses_route (some df) q f
      = (if branchValidB df f then some (chosenCall q f) else none) ∧
    question_plot_route none q dg ds di pc pg = none ∧
    question_plot_route (some df) q dg ds di pc pg
      = some (chosenCall q
          { distinction_by_gender := dg
            distinction_by_school := ds
            distinction_by_income := di
            pie_chart := pc
            gender_filter := none
            pie_chart_by_gender := pg
            school_filter := none
            pie_chart_by_school := false
            income_filter := none
            pie_chart_by_income := false }) := by
  obtain ⟨fdg, fds, fdi, fpc, fgf, fpg, fsf, fps, fif, fpi⟩ := f
  refine ⟨rfl, ?_, rfl, ?_⟩
  · unfold visualize_survey_responses_route branchValidB chosenCall
    cases fdg <;> cases fds <;> cases fdi <;> cases fpc <;> cases fpg <;> cases fps <;> cases fpi
      <;> simp only [Bool.false_eq_true, if_false, if_true]
      <;> try rfl
    all_goals
      first
      | ((by_cases hcol : colIndex df "Q2_GENDER" = none <;> simp [hcol]); done)
      | ((by_cases hcol : colIndex df "Q3_SCHOOL" = none <;> simp [hcol]); done)
      | ((by_cases hcol : colIndex df "Q4_INCOME" = none <;> simp [hcol]); done)
      | ((by_cases hflt : fgf = some "Male" ∨ fgf = some "Female" <;> simp [hflt]); done)
      | ((cases fsf with
          | none => simp
          | some s =>
            by_cases hmem : s ∈ school.map (fun p => p.2)
            <;> simp only [Option.some.injEq, exists_eq_left', Option.getD_some]
            <;> simp [hmem]); done)
      | ((cases fif with
          | none => simp
          | some s =>
            by_cases hmem : s ∈ income.map (fun p => p.2)
            <;> simp only [Option.some.injEq, exists_eq_left', Option.getD_some]
            <;> simp [hmem]); done)
  · unfold question_plot_route chosenCall
    cases dg <;> cases ds <;> cases di <;> cases pc <;> cases pg <;> rfl

/-! ### The user store (`assets/users_db.py`) -/

/-- `(Char.ofNat n).toNat` round-trips on valid code points. -/
theorem char_toNat_ofNat_valid (n : Nat) (h : n.isValidChar) : (Char.ofNat n).toNat = n := by
  simp [Char.ofNat, h, Char.ofNatAux, Char.toNat, UInt32.toNat]

/-- The code point of `Char.toLower`: shifted by 32 on the basic latin
uppercase range, unchanged elsewhere. -/
theorem toLower_toNat (c : Char) :
    (Char.toLower c).toNat = if 65 ≤ c.toNat ∧ c.toNat ≤ 90 then c.toNat + 32 else c.toNat := by
  unfold Char.toLower
  by_cases h : c.toNat ≥ 65 ∧ c.toNat ≤ 90
  · rw [if_pos h, if_pos ⟨h.1, h.2⟩]
    exact char_toNat_ofNat_valid _ (Or.inl (by omega))
  · rw [if_neg h, if_neg (fun hc => h ⟨hc.1, hc.2⟩)]

/-- `Char.toLower` fixes characters outside the uppercase range. -/
theorem toLower_eq_self (c : Char) (h : ¬(65 ≤ c.toNat ∧ c.toNat ≤ 90)) :
    Char.toLower c = c := by
  unfold Char.toLower
  rw [if_neg (fun hc => h ⟨hc.1, hc.2⟩)]

/-- Lowercasing is idempotent. -/
theorem toLower_idem (c : Char) : Char.toLower (Char.toLower c) = Char.toLower c := by
  by_cases h : 65 ≤ c.toNat ∧ c.toNat ≤ 90
  · apply toLower_eq_self
    rw [toLower_toNat, if_pos h]
    omega
  · rw [toLower_eq_self c h, toLower_eq_self c h]

/-- The whitespace set of Python `str.strip()` (ASCII range): space, tab,
newline, carriage return, vertical tab, form feed. -/
def isPySpace (c : Char) : Bool :=
  decide (c.toNat = 32) || decide (c.toNat = 9) || decide (c.toNat = 10)
    || decide (c.toNat = 13) || decide (c.toNat = 11) || decide (c.toNat = 12)

/-- Lowercasing never moves a character in or out of the whitespace set. -/
theorem isPySpace_toLower (c : Char) : isPySpace (Char.toLower c) = isPySpace c := by
  by_cases h : 65 ≤ c.toNat ∧ c.toNat ≤ 90
  · unfold isPySpace
    rw [toLower_toNat, if_pos h]
    have h1 : ∀ m, 65 ≤ m → m ≤ 90 →
        ((decide (m + 32 = 32) || decide (m + 32 = 9) || decide (m + 32 = 10)
          || decide (m + 32 = 13) || decide (m + 32 = 11) || decide (m + 32 = 12))
        = (decide (m = 32) || decide (m = 9) || decide (m = 10)
          || decide (m = 13) || decide (m = 11) || decide (m = 12))) := by
      intro m hm1 hm2
      rw [show decide (m + 32 = 32) = false by simp only [decide_eq_false_iff_not]; omega]
      rw [show decide (m + 32 = 9) = false by simp only [decide_eq_false_iff_not]; omega]
      rw [show decide (m + 32 = 10) = false by simp only [decide_eq_false_iff_not]; omega]
      rw [show decide (m + 32 = 13) = false by simp only [decide_eq_false_iff_not]; omega]
      rw [show decide (m + 32 = 11) = false by simp only [decide_eq_false_iff_not]; omega]
      rw [show decide (m + 32 = 12) = false by simp only [decide_eq_false_iff_not]; omega]
      rw [show decide (m = 32) = false by simp only [decide_eq_false_iff_not]; omega]
      rw [show decide (m = 9) = false by simp only [decide_eq_false_iff_not]; omega]
      rw [show decide (m = 10) = false by simp only [decide_eq_false_iff_not]; omega]
      rw [show decide (m = 13) = false by simp only [decide_eq_false_iff_not]; omega]
      rw [show decide (m = 11) = false by simp only [decide_eq_false_iff_not]; omega]
      rw [show decide (m = 12) = false by simp only [decide_eq_false_iff_not]; omega]
    exact h1 c.toNat h.1 h.2
  · rw [toLower_eq_self c h]

/-- Strip the characters satisfying `p` from both ends of a list. -/
def stripEnds {α : Type} (p : α → Bool) (l : List α) : List α :=
  ((l.dropWhile p).reverse.dropWhile p).reverse

/-- `str.strip()`: drop Python whitespace from both ends. -/
def pyStrip (s : String) : String :=
  { data := stripEnds isPySpace s.data }

/-- `str.lower()` (the basic latin range; the data of this application is
ASCII). -/
def pyLower (s : String) : String :=
  { data := s.data.map Char.toLower }

/-- `email.strip().lower()`: the normalization applied at registration and
at email lookup. -/
def normalizeEmail (email : String) : String :=
  pyLower (pyStrip email)

/-- `dropWhile` is idempotent. -/
theorem dropWhile_idem {α : Type} (p : α → Bool) (l : List α) :
    (l.dropWhile p).dropWhile p = l.dropWhile p := by
  induction l with
  | nil => rfl
  | cons a l ih =>
    by_cases h : p a = true
    · simp [List.dropWhile_cons, h, ih]
    · simp [List.dropWhile_cons, h]

/-- `dropWhile` does nothing when the head (if any) fails the predicate. -/
theorem dropWhile_eq_self_of_head {α : Type} (p : α → Bool) (l : List α)
    (h : ∀ x, l.head? = some x → p x = false) : l.dropWhile p = l := by
  cases l with
  | nil => rfl
  | cons a l =>
    have := h a rfl
    simp [List.dropWhile_cons, this]

/-- The head of a `dropWhile` result fails the predicate. -/
theorem head_dropWhile_false {α : Type} (p : α → Bool) (l : List α) :
    ∀ x, (l.dropWhile p).head? = some x → p x = false := by
  induction l with
  | nil => intro x hx; simp [List.dropWhile] at hx
  | cons a l ih =>
    intro x hx
    by_cases h : p a = true
    · rw [List.dropWhile_cons, if_pos h] at hx
      exact ih x hx
    · rw [List.dropWhile_cons, if_neg h] at hx
      injection hx with he
      subst he
      simpa using h

/-- A nonempty `dropWhile` result keeps the last element. -/
theorem getLast?_dropWhile {α : Type} (p : α → Bool) (l : List α)
    (h : l.dropWhile p ≠ []) : (l.dropWhile p).getLast? = l.getLast? := by
  obtain ⟨t, ht⟩ := List.dropWhile_suffix p (l := l)
  conv_rhs => rw [← ht]
  rw [List.getLast?_append]
  cases hlast : (l.dropWhile p).getLast? with
  | none => exact absurd (List.getLast?_eq_none_iff.mp hlast) h
  | some x => rfl

/-- Stripping both ends is idempotent. -/
theorem stripEnds_idem {α : Type} (p : α → Bool) (l : List α) :
    stripEnds p (stripEnds p l) = stripEnds p l := by
  have h1 : ((List.dropWhile p (List.dropWhile p l).reverse).reverse).dropWhile p
      = (List.dropWhile p (List.dropWhile p l).reverse).reverse := by
    apply dropWhile_eq_self_of_head
    intro x hx
    rw [List.head?_reverse] at hx
    by_cases hvnil : List.dropWhile p (List.dropWhile p l).reverse = []
    · rw [hvnil] at hx
      simp at hx
    · rw [getLast?_dropWhile p (List.dropWhile p l).reverse hvnil, List.getLast?_reverse] at hx
      exact head_dropWhile_false p l x hx
  unfold stripEnds
  rw [h1, List.reverse_reverse, dropWhile_idem]

/-- `dropWhile` commutes with a map that preserves the predicate. -/
theorem dropWhile_map_comm {α : Type} (p : α → Bool) (f : α → α) (l : List α)
    (hf : ∀ c, p (f c) = p c) : (l.map f).dropWhile p = (l.dropWhile p).map f := by
  induction l with
  | nil => rfl
  | cons a l ih =>
    by_cases h : p a = true
    · simp [List.dropWhile_cons, h, hf, ih]
    · simp [List.dropWhile_cons, h, hf]

/-- Stripping commutes with a map that preserves the predicate. -/
theorem stripEnds_map_comm {α : Type} (p : α → Bool) (f : α → α) (l : List α)
    (hf : ∀ c, p (f c) = p c) : stripEnds p (l.map f) = (stripEnds p l).map f := by
  unfold stripEnds
  rw [dropWhile_map_comm p f l hf, ← List.map_reverse, dropWhile_map_comm p f _ hf,
    List.map_reverse]

/-- Normalizing an email is idempotent: stripping and lowercasing a
stripped lowercased string changes nothing. -/
theorem normalizeEmail_idem (s : String) :
    normalizeEmail (normalizeEmail s) = normalizeEmail s := by
  unfold normalizeEmail pyLower pyStrip
  congr 1
  show ((stripEnds isPySpace ((stripEnds isPySpace s.data).map Char.toLower)).map Char.toLower)
      = (stripEnds isPySpace s.data).map Char.toLower
  rw [stripEnds_map_comm isPySpace Char.toLower _ isPySpace_toLower, stripEnds_idem]
  rw [List.map_map]
  apply List.map_congr_left
  intro c _
  exact toLower_idem c

/-- The characters of the local part of `EMAIL_REGEX`
(`[a-zA-Z0-9._%+-]`). -/
def isLocalChar (c : Char) : Bool :=
  c.isAlphanum || c = '.' || c = '_' || c = '%' || c = '+' || c = '-'

/-- The characters of a domain label of `EMAIL_REGEX` (`[a-zA-Z0-9-]`). -/
def isDomainChar (c : Char) : Bool :=
  c.isAlphanum || c = '-'

/-- Split a character list at every occurrence of `sep`; the separators
are dropped, `n` separators yield `n+1` (possibly empty) parts. -/
def splitOnChar (sep : Char) : List Char → List (List Char)
  | [] => [[]]
  | c :: cs =>
    match splitOnChar sep cs with
    | r :: rs => if c = sep then [] :: (r :: rs) else (c :: r) :: rs
    | [] => [[c]]

/-- `re.fullmatch(EMAIL_REGEX, s)` as a language-membership test.  The
pattern `^[a-zA-Z0-9._%+-]+@[a-zA-Z0-9-]+(\\.[a-zA-Z0-9-]+)*\\.[a-zA-Z]{2,}$`
accepts exactly the strings with a single `@` (neither character class
contains `@`), a non-empty local part over its class before it, and after
it a domain that splits on `.` into at least two labels, all but the last
non-empty over letters, digits and hyphens, and the last at least two
letters. -/
def matchesEmailRegex (s : String) : Bool :=
  match splitOnChar '@' s.data with
  | [locPart, domPart] =>
    !locPart.isEmpty && locPart.all isLocalChar &&
      (match (splitOnChar '.' domPart).reverse with
       | ext :: labels =>
         !labels.isEmpty && labels.all (fun lp => !lp.isEmpty && lp.all isDomainChar)
           && decide (ext.length ≥ 2) && ext.all Char.isAlpha
       | [] => false)
  | _ => false

/-- A stored user record: the JSON object `{email, password_hash}`. -/
structure UserRecord where
  email : String
  password_hash : String
deriving DecidableEq

/-- The errors `add_user_to_db` raises (all as `ValueError` in the
source). -/
inductive AddUserError where
  | invalidEmail
  | usernameExists
  | emailExists
deriving DecidableEq

/-- `add_user_to_db` from `assets/users_db.py`, over the loaded database
(an association list in JSON/dict insertion order): normalize the email,
reject it when it fails `EMAIL_REGEX`, reject a username that is already a
key, reject a normalized email already stored verbatim by some user, and
otherwise append the new record (a fresh dict key is inserted at the end)
with the bcrypt hash of the password.  `hashpw` abstracts
`bcrypt.hashpw(..., bcrypt.gensalt())`, whose salt is environmental. -/
def add_user_to_db (hashpw : String → String) (db : List (String × UserRecord))
    (username email password : String) :
    Except AddUserError (List (String × UserRecord)) :=
  if matchesEmailRegex (normalizeEmail email) = false then
    Except.error AddUserError.invalidEmail
  else if (db.lookup username).isSome = true then
    Except.error AddUserError.usernameExists
  else if db.any (fun p => decide (p.2.email = normalizeEmail email)) = true then
    Except.error AddUserError.emailExists
  else
    Except.ok (db ++ [(username,
      { email := normalizeEmail email, password_hash := hashpw password })])

/-- The persisted database after an `add_user_to_db` call: unchanged when
the call raised (`save_users_db` never ran), the saved database
otherwise. -/
def persistedAfterAdd (hashpw : String → String) (db : List (String × UserRecord))
    (username email password : String) : List (String × UserRecord) :=
  match add_user_to_db hashpw db username email password with
  | Except.ok db2 => db2
  | Except.error _ => db

/-- `get_user_by_email` from `assets/users_db.py`: reject a query that
fails `EMAIL_REGEX`, then return the record of the first user in insertion
order whose stored email, stripped and lower-cased, equals the stripped
lower-cased query; `None` when no user matches (the raised
`UserNotFoundError` is swallowed by the function's own handler). -/
def get_user_by_email (db : List (String × UserRecord)) (email : String) :
    Option UserRecord :=
  if matchesEmailRegex email = false then none
  else (db.find? (fun p => decide (normalizeEmail p.2.email = normalizeEmail email))).map
    (fun p => p.2)

/-- The public operations of the user store. -/
inductive StoreOp where
  | addUser (username email password : String)
  | getUserByUsername (username : String)
  | getUserByEmail (email : String)
  | checkPasswordHash (stored_hash password : String)
  | usernameExistsQ (username : String)

/-- The persisted-database transition of each public operation: only
`add_user_to_db` ever calls `save_users_db` (with the dict it extended);
`get_user_by_username`, `get_user_by_email`, `check_password_hash` and
`username_exists` only read. -/
def applyStoreOp (hashpw : String → String) (db : List (String × UserRecord)) :
    StoreOp → List (String × UserRecord)
  | StoreOp.addUser u e p => persistedAfterAdd hashpw db u e p
  | _ => db

/-- `lookup` succeeds exactly when the key has a record in the list. -/
theorem lookup_isSome_iff (db : List (String × UserRecord)) (u : String) :
    (db.lookup u).isSome = true ↔ ∃ r, (u, r) ∈ db := by
  induction db with
  | nil => simp
  | cons q db ih =>
    rcases q with ⟨k, r0⟩
    by_cases hk : u = k
    · subst hk
      simp
    · rw [List.lookup_cons]
      have hbe : (u == k) = false := beq_false_of_ne hk
      rw [hbe]
      simp only [ih]
      constructor
      · rintro ⟨r, hr⟩
        exact ⟨r, List.mem_cons_of_mem _ hr⟩
      · rintro ⟨r, hr⟩
        rcases List.mem_cons.mp hr with hhd | htl
        · injection hhd with h1 h2
          exact absurd h1 hk
        · exact ⟨r, htl⟩

/-- A successful `lookup` survives appending entries on the right. -/
theorem lookup_append_some (db t : List (String × UserRecord)) (x : String)
    (r : UserRecord) (h : db.lookup x = some r) : (db ++ t).lookup x = some r := by
  rw [List.lookup_append, h]
  rfl

/-- The success case of `add_user_to_db`, read off the `if` chain: it
succeeds exactly when the three validations pass, and then appends the new
record. -/
theorem add_user_ok_iff (hashpw : String → String) (db : List (String × UserRecord))
    (u e p : String) (db2 : List (String × UserRecord)) :
    add_user_to_db hashpw db u e p = Except.ok db2 ↔
      (matchesEmailRegex (normalizeEmail e) = true ∧
        (db.lookup u).isSome = false ∧
        db.any (fun q => decide (q.2.email = normalizeEmail e)) = false ∧
        db2 = db ++ [(u, { email := normalizeEmail e, password_hash := hashpw p })]) := by
  unfold add_user_to_db
  by_cases h1 : matchesEmailRegex (normalizeEmail e) = false
  · rw [if_pos h1]
    constructor
    · intro hcon
      exact Except.noConfusion hcon
    · rintro ⟨hm, _⟩
      rw [h1] at hm
      exact Bool.noConfusion hm
  · rw [if_neg h1]
    have h1t : matchesEmailRegex (normalizeEmail e) = true := by
      cases hb : matchesEmailRegex (normalizeEmail e)
      · exact absurd hb h1
      · rfl
    by_cases h2 : (db.lookup u).isSome = true
    · rw [if_pos h2]
      constructor
      · intro hcon
        exact Except.noConfusion hcon
      · rintro ⟨_, hs, _⟩
        rw [h2] at hs
        exact Bool.noConfusion hs
    · rw [if_neg h2]
      by_cases h3 : db.any (fun q => decide (q.2.email = normalizeEmail e)) = true
      · rw [if_pos h3]
        constructor
        · intro hcon
          exact Except.noConfusion hcon
        · rintro ⟨_, _, ha, _⟩
          rw [h3] at ha
          exact Bool.noConfusion ha
      · rw [if_neg h3]
        constructor
        · intro hok
          injection hok with hdb
          refine ⟨h1t, ?_, ?_, hdb.symm⟩
          · rw [← Bool.not_eq_true]
            exact h2
          · rw [← Bool.not_eq_true]
            exact h3
        · rintro ⟨_, _, _, hdb⟩
          rw [hdb]

/-- C3: `add_user_to_db` raises exactly when the normalized email fails
`EMAIL_REGEX`, the username is already a key of the database, or some
existing user already stores that normalized email; whenever it raises the
persisted database is unchanged, and when none of the conditions hold it
adds the user. -/
theorem add_user_to_db_spec (hashpw : String → String) (db : List (String × UserRecord))
    (username email password : String) :
    ((∃ err, add_user_to_db hashpw db username email password = Except.error err) ↔
      (¬ matchesEmailRegex (normalizeEmail email) = true ∨
        (∃ r, (username, r) ∈ db) ∨
        (∃ q ∈ db, q.2.email = normalizeEmail email))) ∧
    ((∃ err, add_user_to_db hashpw db username email password = Except.error err) →
      persistedAfterAdd hashpw db username email password = db) ∧
    (¬ (¬ matchesEmailRegex (normalizeEmail email) = true ∨
        (∃ r, (username, r) ∈ db) ∨
        (∃ q ∈ db, q.2.email = normalizeEmail email)) →
      add_user_to_db hashpw db username email password
        = Except.ok (db ++ [(username,
            { email := normalizeEmail email, password_hash := hashpw password })])) := by
  have huser : (db.lookup username).isSome = true ↔ ∃ r, (username, r) ∈ db :=
    lookup_isSome_iff db username
  have hmail : db.any (fun q => decide (q.2.email = normalizeEmail email)) = true ↔
      ∃ q ∈ db, q.2.email = normalizeEmail email := by
    rw [List.any_eq_true]
    simp
  have herr : (∃ err, add_user_to_db hashpw db username email password = Except.error err) ↔
      (¬ matchesEmailRegex (normalizeEmail email) = true ∨
        (∃ r, (username, r) ∈ db) ∨
        (∃ q ∈ db, q.2.email = normalizeEmail email)) := by
    unfold add_user_to_db
    by_cases h1 : matchesEmailRegex (normalizeEmail email) = false
    · rw [if_pos h1]
      simp only [h1]
      constructor
      · intro _
        exact Or.inl (by simp)
      · intro _
        exact ⟨AddUserError.invalidEmail, rfl⟩
    · rw [if_neg h1]
      have h1t : matchesEmailRegex (normalizeEmail email) = true := by
        cases hb : matchesEmailRegex (normalizeEmail email)
        · exact absurd hb h1
        · rfl
      by_cases h2 : (db.lookup username).isSome = true
      · rw [if_pos h2]
        constructor
        · intro _
          exact Or.inr (Or.inl (huser.mp h2))
        · intro _
          exact ⟨AddUserError.usernameExists, rfl⟩
      · rw [if_neg h2]
        by_cases h3 : db.any (fun q => decide (q.2.email = normalizeEmail email)) = true
        · rw [if_pos h3]
          constructor
          · intro _
            exact Or.inr (Or.inr (hmail.mp h3))
          · intro _
            exact ⟨AddUserError.emailExists, rfl⟩
        · rw [if_neg h3]
          constructor
          · rintro ⟨err, herr⟩
            exact Except.noConfusion herr
          · intro hor
            rcases hor with h | h | h
            · exact absurd h1t h
            · exact absurd (huser.mpr h) h2
            · exact absurd (hmail.mpr h) h3
  refine ⟨herr, ?_, ?_⟩
  · rintro ⟨err, he⟩
    unfold persistedAfterAdd
    rw [he]
  · intro hno
    have h1t : matchesEmailRegex (normalizeEmail email) = true := by
      by_contra hcon
      exact hno (Or.inl hcon)
    have h2f : (db.lookup username).isSome = false := by
      cases hb : (db.lookup username).isSome
      · rfl
      · exact absurd (Or.inr (Or.inl (huser.mp hb))) hno
    have h3f : db.any (fun q => decide (q.2.email = normalizeEmail email)) = false := by
      cases hb : db.any (fun q => decide (q.2.email = normalizeEmail email))
      · rfl
      · exact absurd (Or.inr (Or.inr (hmail.mp hb))) hno
    exact (add_user_ok_iff hashpw db username email password _).mpr ⟨h1t, h2f, h3f, rfl⟩

/-- A concrete hashing stand-in for the witnesses. -/
def sampleHash (s : String) : String := s ++ "#hash"

/-- Witness for C3: on an empty database, registering `alice` with a
padded mixed-case valid email succeeds and appends exactly her record with
the normalized email. -/
theorem add_user_to_db_spec_witness :
    ¬ (¬ matchesEmailRegex (normalizeEmail " Alice@Example.COM ") = true ∨
        (∃ r, ("alice", r) ∈ ([] : List (String × UserRecord))) ∨
        (∃ q ∈ ([] : List (String × UserRecord)),
          q.2.email = normalizeEmail " Alice@Example.COM ")) ∧
    add_user_to_db sampleHash [] "alice" " Alice@Example.COM " "pw"
      = Except.ok [("alice",
          { email := normalizeEmail " Alice@Example.COM ", password_hash := sampleHash "pw" })] := by
  have hno : ¬ (¬ matchesEmailRegex (normalizeEmail " Alice@Example.COM ") = true ∨
      (∃ r, ("alice", r) ∈ ([] : List (String × UserRecord))) ∨
      (∃ q ∈ ([] : List (String × UserRecord)),
        q.2.email = normalizeEmail " Alice@Example.COM ")) := by
    intro hor
    rcases hor with h | h | h
    · exact h (by with_unfolding_all decide)
    · rcases h with ⟨r, hr⟩
      exact absurd hr (List.not_mem_nil _)
    · rcases h with ⟨q, hq, _⟩
      exact absurd hq (List.not_mem_nil _)
  exact ⟨hno, (add_user_to_db_spec sampleHash [] "alice" " Alice@Example.COM " "pw").2.2 hno⟩

/-- C7: a successful `add_user_to_db` appends exactly one new entry, keyed
by the username and holding the normalized email and the bcrypt hash of
the password; the username was not a key before and every previously
stored record is still looked up unchanged; and no operation of the user
store ever updates or deletes an existing record: each one either leaves
the persisted database unchanged or appends a single record under a fresh
key. -/
theorem user_store_append_only (hashpw : String → String)
    (db : List (String × UserRecord)) (op : StoreOp) :
    (∃ appended, applyStoreOp hashpw db op = db ++ appended ∧ appended.length ≤ 1 ∧
      ∀ q ∈ appended, db.lookup q.1 = none) ∧
    (∀ u e p db2, add_user_to_db hashpw db u e p = Except.ok db2 →
      (db2 = db ++ [(u, { email := normalizeEmail e, password_hash := hashpw p })] ∧
        db.lookup u = none ∧
        (∀ x r, db.lookup x = some r → db2.lookup x = some r))) := by
  have hok : ∀ u e p db2, add_user_to_db hashpw db u e p = Except.ok db2 →
      (db2 = db ++ [(u, { email := normalizeEmail e, password_hash := hashpw p })] ∧
        db.lookup u = none ∧
        (∀ x r, db.lookup x = some r → db2.lookup x = some r)) := by
    intro u e p db2 hadd
    obtain ⟨_, hs, _, hdb2⟩ := (add_user_ok_iff hashpw db u e p db2).mp hadd
    have hnone : db.lookup u = none := by
      cases hb : db.lookup u
      · rfl
      · rw [hb] at hs
        exact Bool.noConfusion hs
    refine ⟨hdb2, hnone, ?_⟩
    intro x r hx
    rw [hdb2]
    exact lookup_append_some db _ x r hx
  refine ⟨?_, hok⟩
  cases op with
  | addUser u e p =>
    show ∃ appended, persistedAfterAdd hashpw db u e p = db ++ appended ∧ _
    unfold persistedAfterAdd
    cases hadd : add_user_to_db hashpw db u e p with
    | error err =>
      refine ⟨[], by simp, by simp, ?_⟩
      intro q hq
      exact absurd hq (List.not_mem_nil q)
    | ok db2 =>
      obtain ⟨hdb2, hnone, _⟩ := hok u e p db2 hadd
      refine ⟨[(u, { email := normalizeEmail e, password_hash := hashpw p })], hdb2, by simp, ?_⟩
      intro q hq
      rcases List.mem_cons.mp hq with hhd | htl
      · rw [hhd]
        exact hnone
      · exact absurd htl (List.not_mem_nil q)
  | getUserByUsername u =>
    exact ⟨[], by simp [applyStoreOp], by simp, fun q hq => absurd hq (List.not_mem_nil q)⟩
  | getUserByEmail e =>
    exact ⟨[], by simp [applyStoreOp], by simp, fun q hq => absurd hq (List.not_mem_nil q)⟩
  | checkPasswordHash sh p =>
    exact ⟨[], by simp [applyStoreOp], by simp, fun q hq => absurd hq (List.not_mem_nil q)⟩
  | usernameExistsQ u =>
    exact ⟨[], by simp [applyStoreOp], by simp, fun q hq => absurd hq (List.not_mem_nil q)⟩

/-- The one-user database of the C7 and C9 witnesses. -/
def dbAlice : List (String × UserRecord) :=
  [("alice", { email := "alice@dom.co", password_hash := "h0" })]

/-- The database after the C7 witness registration. -/
def dbAliceBob : List (String × UserRecord) :=
  [("alice", { email := "alice@dom.co", password_hash := "h0" }),
   ("bob", { email := normalizeEmail "Bob@Dom.io", password_hash := sampleHash "pw" })]

/-- Witness for C7: registering `bob` on a one-user database appends his
record and leaves `alice`'s lookup intact. -/
theorem user_store_append_only_witness :
    add_user_to_db sampleHash dbAlice "bob" "Bob@Dom.io" "pw" = Except.ok dbAliceBob ∧
    (dbAliceBob
        = dbAlice
          ++ [("bob", { email := normalizeEmail "Bob@Dom.io", password_hash := sampleHash "pw" })] ∧
      dbAlice.lookup "bob" = none ∧
      (∀ x r, dbAlice.lookup x = some r → dbAliceBob.lookup x = some r)) := by
  have hadd : add_user_to_db sampleHash dbAlice "bob" "Bob@Dom.io" "pw"
      = Except.ok dbAliceBob := by
    with_unfolding_all rfl
  exact ⟨hadd,
    (user_store_append_only sampleHash dbAlice
      (StoreOp.addUser "bob" "Bob@Dom.io" "pw")).2 "bob" "Bob@Dom.io" "pw" _ hadd⟩

/-- The database of the C9 counterexample: one stored user whose email was
persisted with uppercase letters (the loader only checks it against
`EMAIL_REGEX`, which allows them). -/
def dbShadow : List (String × UserRecord) :=
  [("alice", { email := "A@B.co", password_hash := "h1" })]

/-- The record the C9 counterexample registers. -/
def bobRecord : UserRecord :=
  { email := "a@b.co", password_hash := sampleHash "pw" }

/-- Counterexample to C9 as stated: `bob` registers `a@b.co` successfully
(the duplicate-email check compares stored emails verbatim, and the stored
`A@B.co` differs), the query `a@b.co` matches `EMAIL_REGEX` and normalizes
to `bob`'s stored email, yet `get_user_by_email` returns `alice`'s record,
the first whose normalized email matches, not `bob`'s. -/
theorem get_user_by_email_counterexample :
    add_user_to_db sampleHash dbShadow "bob" "a@b.co" "pw"
      = Except.ok (dbShadow ++ [("bob", bobRecord)]) ∧
    matchesEmailRegex "a@b.co" = true ∧
    normalizeEmail "a@b.co" = bobRecord.email ∧
    get_user_by_email (dbShadow ++ [("bob", bobRecord)]) "a@b.co"
      = some { email := "A@B.co", password_hash := "h1" } ∧
    ({ email := "A@B.co", password_hash := "h1" } : UserRecord) ≠ bobRecord := by
  refine ⟨?_, ?_, ?_, ?_, ?_⟩
  · with_unfolding_all rfl
  · with_unfolding_all decide
  · with_unfolding_all rfl
  · with_unfolding_all rfl
  · with_unfolding_all decide

/-- C9 (amended): `get_user_by_email` returns the record of the first user
in insertion order whose stored email normalizes to the normalized query;
in particular, after a successful registration whose normalized email no
earlier user's stored email normalizes to, every query that matches
`EMAIL_REGEX` and normalizes to the stored email returns the new user's
record. -/
theorem get_user_by_email_after_add (hashpw : String → String)
    (db db2 : List (String × UserRecord)) (u e p e2 : String)
    (hadd : add_user_to_db hashpw db u e p = Except.ok db2)
    (hre : matchesEmailRegex e2 = true)
    (heq : normalizeEmail e2 = normalizeEmail e)
    (hfresh : ∀ q ∈ db, normalizeEmail q.2.email ≠ normalizeEmail e) :
    get_user_by_email db2 e2
      = some { email := normalizeEmail e, password_hash := hashpw p } := by
  obtain ⟨_, _, _, hdb2⟩ := (add_user_ok_iff hashpw db u e p db2).mp hadd
  rw [hdb2]
  unfold get_user_by_email
  rw [if_neg (by rw [hre]; exact Bool.noConfusion)]
  have hnone : db.find? (fun q => decide (normalizeEmail q.2.email = normalizeEmail e2)) = none := by
    rw [List.find?_eq_none]
    intro q hq
    simp only [decide_eq_true_eq]
    rw [heq]
    exact hfresh q hq
  rw [List.find?_append, hnone]
  simp only [Option.none_or]
  rw [List.find?_cons_of_pos]
  · rfl
  · simp only [decide_eq_true_eq]
    rw [heq, normalizeEmail_idem]

/-- Witness for C9 (amended): after registering `bob` on a database whose
only user stores a different email, the mixed-case query normalizing to
`bob`'s email returns his record. -/
theorem get_user_by_email_after_add_witness :
    get_user_by_email
        (dbAlice
          ++ [("bob", { email := normalizeEmail "bob@dom.io", password_hash := sampleHash "pw" })])
        "Bob@Dom.IO"
      = some { email := normalizeEmail "bob@dom.io", password_hash := sampleHash "pw" } := by
  apply get_user_by_email_after_add sampleHash dbAlice _ "bob" "bob@dom.io" "pw" "Bob@Dom.IO"
  · with_unfolding_all rfl
  · with_unfolding_all decide
  · with_unfolding_all decide
  · intro q hq
    rcases List.mem_cons.mp hq with hhd | htl
    · rw [hhd]
      with_unfolding_all decide
    · exact absurd htl (List.not_mem_nil q)

/-- What the user-database file can hold, as `load_users_db` sees it: no
file at `DB_FILE`, a file whose content is not valid JSON, or a parsed
JSON object of user records (each record a JSON object with string
values, the shape this store writes and validates). -/
inductive FileState where
  | missing
  | notJson
  | content (users : List (String × List (String × String)))

/-- The `DatabaseError` cases of `load_users_db`. -/
inductive DatabaseErrorKind where
  | missingFields (username : String)
  | invalidEmailFormat (username : String)
  | decodeFailure
deriving DecidableEq

/-- `validate_users_db` from `assets/users_db.py`: walk the records in
order, raising for the first record that lacks an `email` or
`password_hash` field or whose email fails a full match of `EMAIL_REGEX`;
return `True` when every record passes. -/
def validate_users_db :
    List (String × List (String × String)) → Except DatabaseErrorKind Bool
  | [] => Except.ok true
  | (username, details) :: rest =>
    if (details.lookup "email").isNone = true ∨ (details.lookup "password_hash").isNone = true then
      Except.error (DatabaseErrorKind.missingFields username)
    else
      match details.lookup "email" with
      | some e =>
        if matchesEmailRegex e = false then
          Except.error (DatabaseErrorKind.invalidEmailFormat username)
        else validate_users_db rest
      | none => Except.error (DatabaseErrorKind.missingFields username)

/-- `load_users_db` from `assets/users_db.py`: an empty dictionary without
raising when the file does not exist; `DatabaseError` when the content
fails to decode as JSON (and likewise when validation raises, every
validation failure surfacing as a `DatabaseError`); the parsed dictionary
when validation passes. -/
def load_users_db :
    FileState → Except DatabaseErrorKind (List (String × List (String × String)))
  | FileState.missing => Except.ok []
  | FileState.notJson => Except.error DatabaseErrorKind.decodeFailure
  | FileState.content users =>
    match validate_users_db users with
    | Except.error err => Except.error err
    | Except.ok _ => Except.ok users

/-- A record is rejected by validation when a field is missing or the
email fails the regex. -/
def badUserRecord (uRec : String × List (String × String)) : Prop :=
  uRec.2.lookup "email" = none ∨ uRec.2.lookup "password_hash" = none ∨
    (∃ e, uRec.2.lookup "email" = some e ∧ matchesEmailRegex e = false)

/-- `validate_users_db` raises exactly when some record is bad, and
returns `True` otherwise. -/
theorem validate_users_db_error_iff (users : List (String × List (String × String))) :
    ((∃ err, validate_users_db users = Except.error err) ↔ ∃ uRec ∈ users, badUserRecord uRec) ∧
    ((¬ ∃ uRec ∈ users, badUserRecord uRec) → validate_users_db users = Except.ok true) := by
  induction users with
  | nil =>
    constructor
    · constructor
      · rintro ⟨err, herr⟩
        exact Except.noConfusion herr
      · rintro ⟨uRec, hmem, _⟩
        exact absurd hmem (List.not_mem_nil uRec)
    · intro _
      rfl
  | cons q rest ih =>
    rcases q with ⟨username, details⟩
    by_cases hmiss : (details.lookup "email").isNone = true
        ∨ (details.lookup "password_hash").isNone = true
    · have hbad : badUserRecord (username, details) := by
        rcases hmiss with h | h
        · exact Or.inl (Option.isNone_iff_eq_none.mp h)
        · exact Or.inr (Or.inl (Option.isNone_iff_eq_none.mp h))
      constructor
      · constructor
        · intro _
          exact ⟨(username, details), List.mem_cons_self _ _, hbad⟩
        · intro _
          refine ⟨DatabaseErrorKind.missingFields username, ?_⟩
          unfold validate_users_db
          rw [if_pos hmiss]
      · intro hno
        exact absurd ⟨(username, details), List.mem_cons_self _ _, hbad⟩ hno
    · have hsome : ∃ e, details.lookup "email" = some e := by
        rcases hlk : details.lookup "email" with _ | e
        · exact absurd (Or.inl (by rw [hlk]; rfl)) hmiss
        · exact ⟨e, rfl⟩
      rcases hsome with ⟨e, he⟩
      by_cases hre : matchesEmailRegex e = false
      · have hbad : badUserRecord (username, details) := Or.inr (Or.inr ⟨e, he, hre⟩)
        constructor
        · constructor
          · intro _
            exact ⟨(username, details), List.mem_cons_self _ _, hbad⟩
          · intro _
            refine ⟨DatabaseErrorKind.invalidEmailFormat username, ?_⟩
            unfold validate_users_db
            rw [if_neg hmiss, he]
            dsimp only
            rw [if_pos hre]
        · intro hno
          exact absurd ⟨(username, details), List.mem_cons_self _ _, hbad⟩ hno
      · have hgood : ¬ badUserRecord (username, details) := by
          rintro (h | h | ⟨e2, he2, hre2⟩)
          · exact hmiss (Or.inl (by rw [h]; rfl))
          · exact hmiss (Or.inr (by rw [h]; rfl))
          · rw [he] at he2
            injection he2 with hee
            subst hee
            exact hre hre2
        have hstep : validate_users_db ((username, details) :: rest)
            = validate_users_db rest := by
          have hunf : validate_users_db ((username, details) :: rest)
              = (if (details.lookup "email").isNone = true
                    ∨ (details.lookup "password_hash").isNone = true then
                  Except.error (DatabaseErrorKind.missingFields username)
                 else
                  match details.lookup "email" with
                  | some e =>
                    if matchesEmailRegex e = false then
                      Except.error (DatabaseErrorKind.invalidEmailFormat username)
                    else validate_users_db rest
                  | none => Except.error (DatabaseErrorKind.missingFields username)) := rfl
          rw [hunf, if_neg hmiss, he]
          dsimp only
          rw [if_neg hre]
        constructor
        · rw [hstep, ih.1]
          constructor
          · rintro ⟨uRec, hmem, hb⟩
            exact ⟨uRec, List.mem_cons_of_mem _ hmem, hb⟩
          · rintro ⟨uRec, hmem, hb⟩
            rcases List.mem_cons.mp hmem with hhd | htl
            · rw [hhd] at hb
              exact absurd hb hgood
            · exact ⟨uRec, htl, hb⟩
        · intro hno
          rw [hstep]
          apply ih.2
          rintro ⟨uRec, hmem, hb⟩
          exact hno ⟨uRec, List.mem_cons_of_mem _ hmem, hb⟩

/-- C10: `load_users_db` returns an empty dictionary, without raising,
when the database file does not exist; with an existing file it raises a
`DatabaseError` when the content is not valid JSON or when some record
lacks an `email` or `password_hash` field or stores an email that does not
fully match `EMAIL_REGEX`, and returns the parsed dictionary otherwise. -/
theorem load_users_db_spec (users : List (String × List (String × String))) :
    load_users_db FileState.missing = Except.ok [] ∧
    (∃ err, load_users_db FileState.notJson = Except.error err) ∧
    ((∃ uRec ∈ users, badUserRecord uRec) ↔
      (∃ err, load_users_db (FileState.content users) = Except.error err)) ∧
    ((¬ ∃ uRec ∈ users, badUserRecord uRec) →
      load_users_db (FileState.content users) = Except.ok users) := by
  refine ⟨rfl, ⟨DatabaseErrorKind.decodeFailure, rfl⟩, ?_, ?_⟩
  · have hl : load_users_db (FileState.content users)
        = (match validate_users_db users with
           | Except.error e2 => Except.error e2
           | Except.ok _ => Except.ok users) := rfl
    constructor
    · intro hbad
      obtain ⟨err, herr⟩ := (validate_users_db_error_iff users).1.mpr hbad
      refine ⟨err, ?_⟩
      rw [hl, herr]
    · rintro ⟨err, herr⟩
      rw [hl] at herr
      cases hval : validate_users_db users with
      | error e2 =>
        exact (validate_users_db_error_iff users).1.mp ⟨e2, hval⟩
      | ok b =>
        rw [hval] at herr
        exact Except.noConfusion herr
  · intro hno
    have hl : load_users_db (FileState.content users)
        = (match validate_users_db users with
           | Except.error e2 => Except.error e2
           | Except.ok _ => Except.ok users) := rfl
    rw [hl, (validate_users_db_error_iff users).2 hno]

/-- The valid sample database of the C10 witness. -/
def sampleUsersFile : List (String × List (String × String)) :=
  [("alice", [("email", "alice@dom.co"), ("password_hash", "h0")])]

/-- Witness for C10: a well-formed database file loads back verbatim, and
a file whose only record lacks `password_hash` raises. -/
theorem load_users_db_spec_witness :
    load_users_db (FileState.content sampleUsersFile) = Except.ok sampleUsersFile ∧
    (∃ err, load_users_db (FileState.content [("bob", [("email", "bob@dom.io")])])
      = Except.error err) := by
  constructor
  · apply (load_users_db_spec sampleUsersFile).2.2.2
    rintro ⟨uRec, hmem, hbad⟩
    rcases List.mem_cons.mp hmem with hhd | htl
    · rw [hhd] at hbad
      rcases hbad with h | h | ⟨e, he, hre⟩
      · rw [show (([("email", "alice@dom.co"), ("password_hash", "h0")] :
            List (String × String)).lookup "email") = some "alice@dom.co"
            from by with_unfolding_all rfl] at h
        exact Option.noConfusion h
      · rw [show (([("email", "alice@dom.co"), ("password_hash", "h0")] :
            List (String × String)).lookup "password_hash") = some "h0"
            from by with_unfolding_all rfl] at h
        exact Option.noConfusion h
      · rw [show (([("email", "alice@dom.co"), ("password_hash", "h0")] :
            List (String × String)).lookup "email") = some "alice@dom.co"
            from by with_unfolding_all rfl] at he
        injection he with hee
        rw [← hee] at hre
        exact absurd hre (by with_unfolding_all decide)
    · exact absurd htl (List.not_mem_nil uRec)
  · apply ((load_users_db_spec [("bob", [("email", "bob@dom.io")])]).2.2.1).mp
    refine ⟨("bob", [("email", "bob@dom.io")]), List.mem_cons_self _ _, ?_⟩
    exact Or.inr (Or.inl (by with_unfolding_all rfl))

end PFP
